import Mathlib

/-!
Shallow embedding of `src/video_collection/collector.py` (ReelComp).

The module wraps two opaque external collaborators (the TikTokApi scraping
client and the yt-dlp download tool).  Their behaviour is modelled by an
oracle `World`: each call the Python code makes into a collaborator is read
off from the corresponding `World` field.  Exceptions are modelled by the
bespoke result type `Res`; Python functions that may raise return `Res α`.

Collector state (`self.api`, `self.initialized`) is threaded explicitly.
-/

/-- Python exception model: a call either returns a value or raises. -/
inductive Res (α : Type) : Type
  | ok (a : α)
  | exn
  deriving DecidableEq

/-- Outcome of `TikTokApi()` construction plus `create_sessions` in
`_initialize_api`: success, an exception raised before `self.api` is
assigned, or an exception raised after `self.api` is assigned (i.e. inside
`create_sessions`). -/
inductive InitOutcome : Type
  | ok
  | failBeforeApi
  | failAfterApi
  deriving DecidableEq

/-- Nested `author` sub-mapping of the scraping client's response;
`none` models a missing key. -/
structure RawAuthor where
  uniqueId : Option String
  deriving DecidableEq

/-- Nested `video` sub-mapping of the scraping client's response. -/
structure RawVideoInfo where
  duration : Option Int
  height : Option Int
  width : Option Int
  cover : Option String
  downloadAddr : Option String
  playAddr : Option String
  deriving DecidableEq

/-- Nested `music` sub-mapping of the scraping client's response. -/
structure RawMusic where
  authorName : Option String
  title : Option String
  deriving DecidableEq

/-- Nested `stats` sub-mapping of the scraping client's response. -/
structure RawStats where
  diggCount : Option Int
  shareCount : Option Int
  commentCount : Option Int
  playCount : Option Int
  deriving DecidableEq

/-- The `video_data` mapping returned by `video.info()`; every field is
optional, mirroring dictionary `.get` access with defaults. -/
structure RawResponse where
  author : Option RawAuthor := none
  desc : Option String := none
  createTime : Option Int := none
  video : Option RawVideoInfo := none
  music : Option RawMusic := none
  stats : Option RawStats := none
  deriving DecidableEq

/-- Outcome of `self.api.video(url=...)` / `await video.info()`:
the call raises, returns a falsy (empty) response, or returns data. -/
inductive FetchOutcome : Type
  | raises
  | empty
  | data (r : RawResponse)
  deriving DecidableEq

/-- Outcome of the yt-dlp invocation inside `_download_with_ytdlp`:
`ydl.download` raises, completes without producing the output file,
the `shutil.copy2` raises, or everything succeeds. -/
inductive YtdlpOutcome : Type
  | raisesInDownload
  | noOutputFile
  | copyRaises
  | downloadedOk
  deriving DecidableEq

/-- Oracle for the external collaborators' behaviour during one batch. -/
structure World where
  initOut : InitOutcome
  fetch : String → String → FetchOutcome
  downloadPath : String → Option String
  ytdlp : Option String → String → YtdlpOutcome
  closeOk : Bool

/-- `self.api` (is it a live object, i.e. not None) and `self.initialized`. -/
structure CollectorState where
  api : Bool
  inited : Bool
  deriving DecidableEq

/-- The `VideoMetadata` dataclass. -/
structure VideoMetadata where
  id : String
  author : String
  desc : String
  create_time : Int
  duration : Int
  height : Int
  width : Int
  cover : String
  download_url : String
  play_url : String
  music_author : String
  music_title : String
  likes : Int := 0
  shares : Int := 0
  comments : Int := 0
  views : Int := 0
  local_path : Option String := none
  url : Option String := none
  deriving DecidableEq

/-- `TikTokCollector.cleanup`: if `self.api` is live, close the sessions and
reset `api`/`initialized`; a raise inside `close_sessions` is caught, leaving
both fields unchanged.  Never raises. -/
def cleanup (st : CollectorState) (w : World) : CollectorState :=
  if st.api then
    if w.closeOk then { api := false, inited := false } else st
  else st

/-- `TikTokCollector._initialize_api`: skipped when `self.initialized`;
otherwise `self.api` is assigned and `create_sessions` is awaited.  On an
exception the handler runs `cleanup` when `self.api` is set, then re-raises. -/
def init_api (st : CollectorState) (w : World) : CollectorState × Res Unit :=
  if st.inited then (st, Res.ok ())
  else
    match w.initOut with
    | InitOutcome.ok => ({ api := true, inited := true }, Res.ok ())
    | InitOutcome.failBeforeApi =>
        (if st.api then cleanup st w else st, Res.exn)
    | InitOutcome.failAfterApi =>
        (cleanup { api := true, inited := st.inited } w, Res.exn)

/-- Python truthiness of an `Optional[str]`: `None` and `""` are falsy. -/
def optTruthy : Option String → Bool
  | none => false
  | some s => if s = "" then false else true

/-- Match a literal character sequence at the head of the input, returning
the rest on success (one regex literal). -/
def dropLit : List Char → List Char → Option (List Char)
  | [], s => some s
  | _ :: _, [] => none
  | p :: ps, c :: cs => if c = p then dropLit ps cs else none

/-- Greedy run of characters satisfying `f` (a regex `[...]+`/`+` atom):
returns the maximal run and the remainder. -/
def takeRun (f : Char → Bool) : List Char → List Char × List Char
  | [] => ([], [])
  | c :: cs =>
      if f c then
        match takeRun f cs with
        | (run, rest) => (c :: run, rest)
      else ([], c :: cs)

/-- Python regex `\d` (ASCII model). -/
def isDigitCh (c : Char) : Bool := c.isDigit

/-- Python regex `\w` (ASCII model): letters, digits, underscore. -/
def isWordCh (c : Char) : Bool := c.isAlphanum || c = '_'

/-- Character class `[\w.-]` of the first URL pattern. -/
def isUserCh (c : Char) : Bool := isWordCh c || c = '.' || c = '-'

/-- Regex `s?` immediately followed by `://`: committing to a leading `s`
is equivalent to backtracking because `:` is not `s`. -/
def optS : List Char → List Char
  | 's' :: rest => rest
  | s => s

/-- Regex `(?:www\.)?` immediately followed by `tiktok.com`: committing is
equivalent to backtracking because `t` is not `w`. -/
def optWww (s : List Char) : List Char :=
  match dropLit "www.".data s with
  | some r => r
  | none => s

/-- Regex `(?:m\.)?` immediately followed by `tiktok.com`. -/
def optM (s : List Char) : List Char :=
  match dropLit "m.".data s with
  | some r => r
  | none => s

/-- Regex alternation `(?:vm|vt)`. -/
def dropVmVt : List Char → Option (List Char)
  | 'v' :: 'm' :: r => some r
  | 'v' :: 't' :: r => some r
  | _ => none

/-- Anchored matcher for pattern 1,
`https?://(?:www\.)?tiktok\.com/@[\w.-]+/video/(\d+)`;
returns the capturing group when the pattern matches at the head. -/
def p1At (s : List Char) : Option String :=
  match dropLit "http".data s with
  | none => none
  | some s1 =>
    match dropLit "://".data (optS s1) with
    | none => none
    | some s2 =>
      match dropLit "tiktok.com/@".data (optWww s2) with
      | none => none
      | some s3 =>
        match takeRun isUserCh s3 with
        | (run, s4) =>
          if run = [] then none
          else
            match dropLit "/video/".data s4 with
            | none => none
            | some s5 =>
              match takeRun isDigitCh s5 with
              | (ds, _) => if ds = [] then none else some (String.mk ds)

/-- Anchored matcher for pattern 2, `https?://(?:m\.)?tiktok\.com/v/(\d+)`. -/
def p2At (s : List Char) : Option String :=
  match dropLit "http".data s with
  | none => none
  | some s1 =>
    match dropLit "://".data (optS s1) with
    | none => none
    | some s2 =>
      match dropLit "tiktok.com/v/".data (optM s2) with
      | none => none
      | some s3 =>
        match takeRun isDigitCh s3 with
        | (ds, _) => if ds = [] then none else some (String.mk ds)

/-- Anchored matcher for pattern 3, `https?://(?:vm|vt)\.tiktok\.com/(\w+)`. -/
def p3At (s : List Char) : Option String :=
  match dropLit "http".data s with
  | none => none
  | some s1 =>
    match dropLit "://".data (optS s1) with
    | none => none
    | some s2 =>
      match dropVmVt s2 with
      | none => none
      | some s3 =>
        match dropLit ".tiktok.com/".data s3 with
        | none => none
        | some s4 =>
          match takeRun isWordCh s4 with
          | (ws, _) => if ws = [] then none else some (String.mk ws)

/-- `re.search`: try the anchored matcher at every start position, leftmost
position first. -/
def reSearch (p : List Char → Option String) : List Char → Option String
  | [] => p []
  | c :: cs =>
      match p (c :: cs) with
      | some g => some g
      | none => reSearch p cs

/-- `self.video_id_patterns`, in source order. -/
def video_id_patterns : List (List Char → Option String) := [p1At, p2At, p3At]

/-- `TikTokCollector._extract_video_id`: for each pattern in order, run
`re.search`; return the first capturing group of the first pattern that
matches anywhere in the URL, else `None`. -/
def extract_video_id (url : String) : Option String :=
  video_id_patterns.findSome? (fun p => reSearch p url.data)

/-- `TikTokCollector._construct_video_url`. -/
def construct_video_url (video_id : String) : String :=
  "https://www.tiktok.com/@placeholder/video/" ++ video_id

/-- Python `str.strip()`: drop whitespace from both ends. -/
def pyStrip (s : String) : String :=
  String.mk (((s.data.dropWhile Char.isWhitespace).reverse.dropWhile
      Char.isWhitespace).reverse)

/-- The URL actually passed to the client in `_get_video_info`: the original
URL when truthy, else the synthesized `https://www.tiktok.com/video/{id}`. -/
def effective_url (video_id : String) (original_url : Option String) : String :=
  match original_url with
  | none => "https://www.tiktok.com/video/" ++ video_id
  | some s => if s = "" then "https://www.tiktok.com/video/" ++ video_id else s

/-- Field mapping of `_get_video_info`: nested `.get(k, {})`/`.get(k, d)`
chains flattened into a `VideoMetadata`, with `''`/`0` for missing keys. -/
def mkMetadata (video_id u : String) (r : RawResponse) : VideoMetadata :=
  { id := video_id
  , author := (r.author.bind RawAuthor.uniqueId).getD ""
  , desc := r.desc.getD ""
  , create_time := r.createTime.getD 0
  , duration := (r.video.bind RawVideoInfo.duration).getD 0
  , height := (r.video.bind RawVideoInfo.height).getD 0
  , width := (r.video.bind RawVideoInfo.width).getD 0
  , cover := (r.video.bind RawVideoInfo.cover).getD ""
  , download_url := (r.video.bind RawVideoInfo.downloadAddr).getD ""
  , play_url := (r.video.bind RawVideoInfo.playAddr).getD ""
  , music_author := (r.music.bind RawMusic.authorName).getD ""
  , music_title := (r.music.bind RawMusic.title).getD ""
  , likes := (r.stats.bind RawStats.diggCount).getD 0
  , shares := (r.stats.bind RawStats.shareCount).getD 0
  , comments := (r.stats.bind RawStats.commentCount).getD 0
  , views := (r.stats.bind RawStats.playCount).getD 0
  , local_path := none
  , url := some u }

/-- `TikTokCollector._get_video_info`: raises when `self.api` is not live;
raises when the client call raises or the response is falsy; otherwise maps
the response tolerantly into a `VideoMetadata`. -/
def get_video_info (w : World) (apiLive : Bool) (video_id : String)
    (original_url : Option String) : Res VideoMetadata :=
  if apiLive then
    match w.fetch video_id (effective_url video_id original_url) with
    | FetchOutcome.raises => Res.exn
    | FetchOutcome.empty => Res.exn
    | FetchOutcome.data r =>
        Res.ok (mkMetadata video_id (effective_url video_id original_url) r)
  else Res.exn

/-- `TikTokCollector._download_with_ytdlp`: every failure mode of the tool
(raise during download, missing output file, raise during the copy) is
caught and converted to `false`; only a completed download with the file in
place yields `true`.  Never raises. -/
def download_with_ytdlp (w : World) (url : Option String)
    (output_path : String) : Bool :=
  match w.ytdlp url output_path with
  | YtdlpOutcome.raisesInDownload => false
  | YtdlpOutcome.noOutputFile => false
  | YtdlpOutcome.copyRaises => false
  | YtdlpOutcome.downloadedOk => true

/-- Body of `_download_video` before its `except` boundary: compute the
output path (`get_download_path` may raise, modelled by `none`), run the
tool, and on success mutate `local_path` and return the path. -/
def download_video_attempt (w : World) (m : VideoMetadata) :
    Res (Option String × VideoMetadata) :=
  match w.downloadPath m.id with
  | none => Res.exn
  | some output_path =>
      if download_with_ytdlp w m.url output_path then
        Res.ok (some output_path, { m with local_path := some output_path })
      else Res.ok (none, m)

/-- `TikTokCollector._download_video`: the surrounding `try`/`except`
converts any raise in the body into a `None` result.  Never raises. -/
def download_video (w : World) (m : VideoMetadata) :
    Option String × VideoMetadata :=
  match download_video_attempt w m with
  | Res.ok r => r
  | Res.exn => (none, m)

/-- Insertion into the `url_to_id` dict: an existing key keeps its position
and takes the new value; a new key is appended. -/
def dictInsert (d : List (String × String)) (k v : String) :
    List (String × String) :=
  if d.any (fun p => p.1 = k) then
    d.map (fun p => if p.1 = k then (k, v) else p)
  else d ++ [(k, v)]

/-- The `for url in urls` loop that builds `url_to_id`: trim the URL,
extract an ID, and store truthy IDs keyed by the trimmed URL. -/
def buildAux (d : List (String × String)) : List String → List (String × String)
  | [] => d
  | url :: rest =>
      match extract_video_id (pyStrip url) with
      | some v =>
          if v = "" then buildAux d rest
          else buildAux (dictInsert d (pyStrip url) v) rest
      | none => buildAux d rest

/-- The `url_to_id` insertion-ordered dict built by `download_videos`. -/
def buildUrlToId (urls : List String) : List (String × String) :=
  buildAux [] urls

/-- The per-item body of the `for url, video_id in url_to_id.items()` loop:
fetch metadata (raises propagate to the caller), then attempt the download
and append the (mutated) record only when the returned path is truthy. -/
def processItems (w : World) (apiLive : Bool) :
    List (String × String) → Res (List VideoMetadata)
  | [] => Res.ok []
  | (url, video_id) :: rest =>
      match get_video_info w apiLive video_id (some url) with
      | Res.exn => Res.exn
      | Res.ok m =>
          match processItems w apiLive rest with
          | Res.exn => Res.exn
          | Res.ok tail =>
              Res.ok (if optTruthy (download_video w m).1
                      then (download_video w m).2 :: tail else tail)

/-- One item's pipeline in isolation: the record it would contribute when
its own fetch and download both succeed, `none` otherwise. -/
def processItem (w : World) (apiLive : Bool) (p : String × String) :
    Option VideoMetadata :=
  match get_video_info w apiLive p.2 (some p.1) with
  | Res.exn => none
  | Res.ok m =>
      if optTruthy (download_video w m).1 then some (download_video w m).2
      else none

/-- `TikTokCollector.download_videos`: initialize the client (a raise is
caught by the batch-level `except`, yielding `[]`), build `url_to_id`,
return `[]` when it is empty, run the per-item loop (a raise is likewise
caught, discarding all partial results), and in every case run `cleanup`
in the `finally` before returning.  The public result is always `Res.ok`. -/
def download_videos (st : CollectorState) (w : World) (urls : List String) :
    CollectorState × Res (List VideoMetadata) :=
  match (init_api st w).2 with
  | Res.exn => (cleanup (init_api st w).1 w, Res.ok [])
  | Res.ok _ =>
      if buildUrlToId urls = [] then (cleanup (init_api st w).1 w, Res.ok [])
      else
        match processItems w (init_api st w).1.api (buildUrlToId urls) with
        | Res.exn => (cleanup (init_api st w).1 w, Res.ok [])
        | Res.ok results => (cleanup (init_api st w).1 w, Res.ok results)

/-- The list `download_videos` hands back to its caller. -/
def batchResults (st : CollectorState) (w : World) (urls : List String) :
    List VideoMetadata :=
  match (download_videos st w urls).2 with
  | Res.ok l => l
  | Res.exn => []

/-- A collector state satisfying the class invariant: `self.initialized`
implies `self.api` is live. -/
def stInv (st : CollectorState) : Prop := st.inited = true → st.api = true

/-- A freshly constructed collector. -/
def stFresh : CollectorState := { api := false, inited := false }

/-- A response with every key missing. -/
def blankResponse : RawResponse := {}

/-- A standard profile-video URL whose ID is `111`. -/
def uA : String := "https://www.tiktok.com/@a/video/111"

/-- A standard profile-video URL whose ID is `222`. -/
def uB : String := "https://www.tiktok.com/@a/video/222"

/-- A world where the client session opens, video `111` fetches and
downloads fine, and any other video's metadata fetch raises. -/
def wC1 : World :=
  { initOut := InitOutcome.ok
  , fetch := fun vid _ =>
      if vid = "111" then FetchOutcome.data blankResponse else FetchOutcome.raises
  , downloadPath := fun vid => some ("dl/" ++ vid)
  , ytdlp := fun _ _ => YtdlpOutcome.downloadedOk
  , closeOk := true }

/-- A world where `create_sessions` raises (after `self.api` is assigned). -/
def wInitFail : World :=
  { initOut := InitOutcome.failAfterApi
  , fetch := fun _ _ => FetchOutcome.raises
  , downloadPath := fun _ => none
  , ytdlp := fun _ _ => YtdlpOutcome.raisesInDownload
  , closeOk := true }

/-- Like `wC1` but closing the client session itself raises. -/
def wBadClose : World :=
  { initOut := InitOutcome.ok
  , fetch := fun vid _ =>
      if vid = "111" then FetchOutcome.data blankResponse else FetchOutcome.raises
  , downloadPath := fun vid => some ("dl/" ++ vid)
  , ytdlp := fun _ _ => YtdlpOutcome.downloadedOk
  , closeOk := false }

/-- A world where every fetch answers with the all-defaults response. -/
def wC6 : World :=
  { initOut := InitOutcome.ok
  , fetch := fun _ _ => FetchOutcome.data blankResponse
  , downloadPath := fun vid => some ("dl/" ++ vid)
  , ytdlp := fun _ _ => YtdlpOutcome.downloadedOk
  , closeOk := true }

/-- The metadata record fetched for video `111` in `wC1`. -/
def mBase : VideoMetadata := mkMetadata "111" uA blankResponse

/-- A concrete all-digit video ID. -/
def vid123 : String := "123"

/-- The record returned for `uA` in `wC1`, after the download step. -/
def mDone : VideoMetadata := { mBase with local_path := some "dl/111" }

/-! ### Lemmas about the pattern matchers -/

theorem dropLit_self (p s : List Char) : dropLit p (p ++ s) = some s := by
  induction p with
  | nil => rfl
  | cons c cs ih => simp [dropLit, ih]

theorem takeRun_all (f : Char → Bool) (l : List Char)
    (h : ∀ c ∈ l, f c = true) : takeRun f l = (l, []) := by
  induction l with
  | nil => rfl
  | cons c cs ih =>
    have hc : f c = true := h c (by simp)
    have ih' := ih (fun x hx => h x (by simp [hx]))
    simp [takeRun, hc, ih']

theorem reSearch_head (p : List Char → Option String) (s : List Char)
    (g : String) (h : p s = some g) : reSearch p s = some g := by
  cases s with
  | nil => simpa [reSearch] using h
  | cons c cs => simp [reSearch, h]

theorem extract_step (u : String) :
    extract_video_id u =
      match reSearch p1At u.data with
      | some g => some g
      | none =>
        match reSearch p2At u.data with
        | some g => some g
        | none => reSearch p3At u.data := by
  cases h1 : reSearch p1At u.data with
  | some g => simp [extract_video_id, video_id_patterns, List.findSome?_cons, h1]
  | none =>
    cases h2 : reSearch p2At u.data with
    | some g =>
      simp [extract_video_id, video_id_patterns, List.findSome?_cons, h1, h2]
    | none =>
      simp [extract_video_id, video_id_patterns, List.findSome?_cons, h1, h2]
      cases reSearch p3At u.data <;> rfl

theorem p1At_lit (l : List Char) :
    p1At ("https://www.tiktok.com/@placeholder/video/".data ++ l)
      = match takeRun isDigitCh l with
        | (ds, _) => if ds = [] then none else some (String.mk ds) := rfl

theorem construct_data (vid : String) :
    (construct_video_url vid).data
      = "https://www.tiktok.com/@placeholder/video/".data ++ vid.data := rfl

theorem data_ne_nil (s : String) (h : s ≠ "") : s.data ≠ [] := by
  intro hd
  apply h
  calc s = String.mk s.data := rfl
    _ = String.mk [] := by rw [hd]
    _ = "" := rfl

/-- C7: `_extract_video_id` tries the three URL patterns in their fixed
order and returns the first capturing-group match of the first pattern whose
search succeeds (first-match-wins across the ordered pattern list); when no
pattern matches anywhere in the string it returns `None`. -/
theorem C7_extract_first_match (u : String) :
    extract_video_id u =
      match reSearch p1At u.data with
      | some g => some g
      | none =>
        match reSearch p2At u.data with
        | some g => some g
        | none => reSearch p3At u.data := extract_step u

/-- C10: for every non-empty string of decimal digits `vid`, extracting a
video ID from the URL built by `_construct_video_url vid` succeeds and
returns exactly `vid`: the `@placeholder` URL matches the first pattern. -/
theorem C10_roundtrip (vid : String) (h1 : vid ≠ "")
    (h2 : ∀ c ∈ vid.data, isDigitCh c = true) :
    extract_video_id (construct_video_url vid) = some vid := by
  have hne : vid.data ≠ [] := data_ne_nil vid h1
  have hp1 : p1At ((construct_video_url vid).data) = some vid := by
    rw [construct_data, p1At_lit, takeRun_all isDigitCh vid.data h2]
    simp [hne]
  have hs : reSearch p1At ((construct_video_url vid).data) = some vid :=
    reSearch_head _ _ _ hp1
  rw [extract_step, hs]

/-- C10 witness: the round trip at the concrete ID `123`. -/
theorem C10_witness :
    vid123 ≠ "" ∧ (∀ c ∈ vid123.data, isDigitCh c = true) ∧
    extract_video_id (construct_video_url vid123) = some vid123 :=
  ⟨by decide, by decide, C10_roundtrip vid123 (by decide) (by decide)⟩

/-! ### Lemmas about the orchestrator's state handling -/

theorem dv_state (st : CollectorState) (w : World) (urls : List String) :
    (download_videos st w urls).1 = cleanup (init_api st w).1 w := by
  unfold download_videos
  split
  · rfl
  · split
    · rfl
    · split <;> rfl

theorem dv_results_cases (st : CollectorState) (w : World) (urls : List String) :
    (download_videos st w urls).2 = Res.ok [] ∨
    ∃ l, (download_videos st w urls).2 = Res.ok l ∧
      processItems w (init_api st w).1.api (buildUrlToId urls) = Res.ok l := by
  unfold download_videos
  split
  · left; rfl
  · split
    · left; rfl
    · split
      · left; rfl
      · next l h => right; exact ⟨l, rfl, h⟩

theorem batchResults_eq (st : CollectorState) (w : World) (urls : List String)
    (l : List VideoMetadata) (h : (download_videos st w urls).2 = Res.ok l) :
    batchResults st w urls = l := by
  unfold batchResults
  rw [h]

theorem cleanup_state (st : CollectorState) (w : World) (hInv : stInv st)
    (hc : w.closeOk = true) :
    cleanup (init_api st w).1 w = { api := false, inited := false } := by
  obtain ⟨sapi, sinit⟩ := st
  cases sapi <;> cases sinit <;> cases hi : w.initOut <;>
    simp_all [init_api, cleanup, stInv, hc]

theorem optTruthy_some (dp : Option String) (h : optTruthy dp = true) :
    ∃ p, dp = some p ∧ p ≠ "" := by
  cases dp with
  | none => simp [optTruthy] at h
  | some s =>
    by_cases hs : s = ""
    · simp [optTruthy, hs] at h
    · exact ⟨s, rfl, hs⟩

theorem download_video_eq_of (w : World) (m : VideoMetadata) :
    download_video w m =
      match w.downloadPath m.id with
      | none => (none, m)
      | some p =>
          if download_with_ytdlp w m.url p then
            (some p, { m with local_path := some p })
          else (none, m) := by
  unfold download_video download_video_attempt
  cases w.downloadPath m.id with
  | none => rfl
  | some p => by_cases h : download_with_ytdlp w m.url p <;> simp [h]

theorem download_video_url (w : World) (m : VideoMetadata) :
    (download_video w m).2.url = m.url := by
  rw [download_video_eq_of]
  cases w.downloadPath m.id with
  | none => rfl
  | some p => by_cases h : download_with_ytdlp w m.url p <;> simp [h]

theorem download_video_truthy (w : World) (m : VideoMetadata) (dp : Option String)
    (mUpd : VideoMetadata) (h : download_video w m = (dp, mUpd))
    (ht : optTruthy dp = true) :
    ∃ p, dp = some p ∧ p ≠ "" ∧ w.downloadPath m.id = some p ∧
      download_with_ytdlp w m.url p = true ∧
      mUpd = { m with local_path := some p } := by
  obtain ⟨p, hdp, hpne⟩ := optTruthy_some dp ht
  subst hdp
  rw [download_video_eq_of] at h
  split at h
  · simp at h
  · next q hq =>
    split at h
    · next hs =>
      rw [Prod.mk.injEq] at h
      obtain ⟨h1, h2⟩ := h
      injection h1 with h1
      subst h1
      exact ⟨_, rfl, hpne, hq, hs, h2.symm⟩
    · simp at h

theorem get_video_info_ok (w : World) (api : Bool) (vid : String)
    (ourl : Option String) (m : VideoMetadata)
    (h : get_video_info w api vid ourl = Res.ok m) :
    api = true ∧ ∃ r, w.fetch vid (effective_url vid ourl) = FetchOutcome.data r ∧
      m = mkMetadata vid (effective_url vid ourl) r := by
  cases api with
  | false => simp [get_video_info] at h
  | true =>
    refine ⟨rfl, ?_⟩
    unfold get_video_info at h
    cases hf : w.fetch vid (effective_url vid ourl) <;> rw [hf] at h
    · simp at h
    · simp at h
    · next r =>
      refine ⟨r, rfl, ?_⟩
      simp at h
      exact h.symm

theorem effective_url_some (vid url : String) (h : url ≠ "") :
    effective_url vid (some url) = url := by
  simp [effective_url, h]

/-- C2 counterexample: with `create_sessions` failing, `_initialize_api`
does raise, but `download_videos` returns normally with an empty list — the
initialization exception is NOT re-raised to the caller of
`download_videos`. -/
theorem C2_counterexample :
    (init_api stFresh wInitFail).2 = Res.exn ∧
    (download_videos stFresh wInitFail [uA]).2 = Res.ok [] := by
  constructor
  · rfl
  · rfl

/-- C2 amended: when initializing the client session fails,
`_initialize_api` re-raises to `download_videos`, whose batch-level handler
catches the exception and returns an empty list; `download_videos` itself
never raises to its caller. -/
theorem C2_init_failure_caught (st : CollectorState) (w : World)
    (urls : List String) :
    ((init_api st w).2 = Res.exn → (download_videos st w urls).2 = Res.ok []) ∧
    (∃ l, (download_videos st w urls).2 = Res.ok l) := by
  constructor
  · intro h
    unfold download_videos
    split
    · rfl
    · next a heq => rw [h] at heq; cases heq
  · rcases dv_results_cases st w urls with h | ⟨l, h, _⟩
    · exact ⟨[], h⟩
    · exact ⟨l, h⟩

/-- C2 witness: the amended claim at a concrete failing world. -/
theorem C2_witness :
    (download_videos stFresh wInitFail [uB]).2 = Res.ok [] :=
  (C2_init_failure_caught stFresh wInitFail [uB]).1 (by decide)

/-- C4 counterexample: when closing the session itself raises, `cleanup`
leaves `self.api` live and `self.initialized` set after `download_videos`
returns, so the collector still holds the client — refuting the claim that
this holds on every exit path. -/
theorem C4_counterexample :
    (download_videos stFresh wBadClose [uA]).1
      = { api := true, inited := true } := by
  decide

/-- C4 amended: `cleanup` runs on every exit path of `download_videos`, and
whenever the collector starts in a state satisfying the class invariant and
the close operation itself does not raise, the final state holds no live
client (`api` None, `initialized` False), so a subsequent call
re-initializes from scratch; when the close raises, the flags are left
unchanged. -/
theorem C4_cleanup_on_exit (st : CollectorState) (w : World)
    (urls : List String) (hInv : stInv st) (hc : w.closeOk = true) :
    (download_videos st w urls).1 = { api := false, inited := false } := by
  rw [dv_state]
  exact cleanup_state st w hInv hc

/-- C4 witness: the amended claim at a concrete run. -/
theorem C4_witness :
    (download_videos stFresh wC1 [uA]).1 = { api := false, inited := false } :=
  C4_cleanup_on_exit stFresh wC1 [uA] (by intro h; simp [stFresh] at h) rfl

/-- C5: `_download_video` returns the output path (and attaches it as
`local_path`) exactly when the tool call succeeds; it returns `None` when
computing the output path raises or the tool fails — and every tool failure
mode (raise during download, missing output file, raise during the copy)
is converted to `false` by `_download_with_ytdlp`; no exception crosses the
`_download_video` boundary (its result type is total). -/
theorem C5_download_boundary (w : World) (m : VideoMetadata) :
    (w.downloadPath m.id = none → download_video w m = (none, m)) ∧
    (∀ p, w.downloadPath m.id = some p → download_with_ytdlp w m.url p = true →
        download_video w m = (some p, { m with local_path := some p })) ∧
    (∀ p, w.downloadPath m.id = some p → download_with_ytdlp w m.url p = false →
        download_video w m = (none, m)) ∧
    (∀ u q, w.ytdlp u q ≠ YtdlpOutcome.downloadedOk →
        download_with_ytdlp w u q = false) := by
  refine ⟨?_, ?_, ?_, ?_⟩
  · intro h
    rw [download_video_eq_of, h]
  · intro p hp hs
    rw [download_video_eq_of, hp]
    simp [hs]
  · intro p hp hs
    rw [download_video_eq_of, hp]
    simp [hs]
  · intro u q h
    unfold download_with_ytdlp
    cases hy : w.ytdlp u q <;> simp_all

/-- C5 witness: the success case at a concrete record and world. -/
theorem C5_witness :
    download_video wC1 mBase
      = (some "dl/111", { mBase with local_path := some "dl/111" }) :=
  (C5_download_boundary wC1 mBase).2.1 "dl/111" (by decide) (by decide)

/-- C6: `_get_video_info` raises when the client is not live and when the
client call raises or answers with a falsy response; when a response is
present it never raises — it maps the nested fields through defaults, and a
response with every key missing yields the all-defaults record
(empty strings and zeros). -/
theorem C6_fetch_contract (w : World) (vid : String) (ourl : Option String) :
    get_video_info w false vid ourl = Res.exn ∧
    (w.fetch vid (effective_url vid ourl) = FetchOutcome.raises →
        get_video_info w true vid ourl = Res.exn) ∧
    (w.fetch vid (effective_url vid ourl) = FetchOutcome.empty →
        get_video_info w true vid ourl = Res.exn) ∧
    (∀ r, w.fetch vid (effective_url vid ourl) = FetchOutcome.data r →
        get_video_info w true vid ourl =
          Res.ok (mkMetadata vid (effective_url vid ourl) r)) ∧
    mkMetadata vid (effective_url vid ourl) blankResponse =
      { id := vid, author := "", desc := "", create_time := 0, duration := 0
      , height := 0, width := 0, cover := "", download_url := "", play_url := ""
      , music_author := "", music_title := "", likes := 0, shares := 0
      , comments := 0, views := 0, local_path := none
      , url := some (effective_url vid ourl) } := by
  refine ⟨rfl, ?_, ?_, ?_, rfl⟩
  · intro h
    unfold get_video_info
    rw [if_pos rfl, h]
  · intro h
    unfold get_video_info
    rw [if_pos rfl, h]
  · intro r h
    unfold get_video_info
    rw [if_pos rfl, h]

/-- C6 witness: a live client and an all-defaults response at ID `7`. -/
theorem C6_witness :
    get_video_info wC6 false "7" none = Res.exn ∧
    get_video_info wC6 true "7" none =
      Res.ok (mkMetadata "7" (effective_url "7" none) blankResponse) :=
  ⟨(C6_fetch_contract wC6 "7" none).1,
   (C6_fetch_contract wC6 "7" none).2.2.2.1 blankResponse (by decide)⟩

/-! ### Lemmas about the per-item processing loop -/

theorem processItems_cons (w : World) (api : Bool) (url vid : String)
    (rest : List (String × String)) :
    processItems w api ((url, vid) :: rest) =
      match get_video_info w api vid (some url) with
      | Res.exn => Res.exn
      | Res.ok m =>
          match processItems w api rest with
          | Res.exn => Res.exn
          | Res.ok tail =>
              Res.ok (if optTruthy (download_video w m).1
                      then (download_video w m).2 :: tail else tail) := rfl

theorem processItems_ok_of_no_exn (w : World) (api : Bool)
    (d : List (String × String))
    (h : ∀ p ∈ d, get_video_info w api p.2 (some p.1) ≠ Res.exn) :
    processItems w api d = Res.ok (d.filterMap (processItem w api)) := by
  induction d with
  | nil => rfl
  | cons p rest ih =>
    obtain ⟨url, vid⟩ := p
    have hp := h (url, vid) (List.mem_cons_self _ _)
    have ih' := ih (fun q hq => h q (List.mem_cons_of_mem _ hq))
    rw [processItems_cons, ih', List.filterMap_cons]
    cases hg : get_video_info w api vid (some url) with
    | exn => exact absurd hg hp
    | ok m =>
      have hpi : processItem w api (url, vid) =
          (if optTruthy (download_video w m).1
           then some (download_video w m).2 else none) := by
        unfold processItem
        rw [hg]
      rw [hpi]
      cases ht : optTruthy (download_video w m).1 <;> simp [ht]

theorem processItems_exn_of_exn (w : World) (api : Bool)
    (d : List (String × String))
    (h : ∃ p ∈ d, get_video_info w api p.2 (some p.1) = Res.exn) :
    processItems w api d = Res.exn := by
  induction d with
  | nil => simp at h
  | cons p rest ih =>
    obtain ⟨url, vid⟩ := p
    cases hg : get_video_info w api vid (some url) with
    | exn => rw [processItems_cons, hg]
    | ok m =>
      have hrest : ∃ q ∈ rest, get_video_info w api q.2 (some q.1) = Res.exn := by
        rcases h with ⟨q, hq, hqe⟩
        rcases List.mem_cons.mp hq with rfl | hmem
        · exact absurd hqe (by simp [hg])
        · exact ⟨q, hmem, hqe⟩
      rw [processItems_cons, hg, ih hrest]

theorem processItems_length (w : World) (api : Bool)
    (d : List (String × String)) (l : List VideoMetadata)
    (h : processItems w api d = Res.ok l) : l.length ≤ d.length := by
  induction d generalizing l with
  | nil =>
    unfold processItems at h
    injection h with h
    subst h
    simp
  | cons p rest ih =>
    obtain ⟨url, vid⟩ := p
    rw [processItems_cons] at h
    split at h
    · cases h
    · next m hg =>
      split at h
      · cases h
      · next tail htail =>
        injection h with h
        subst h
        have hlen := ih tail htail
        cases ht : optTruthy (download_video w m).1 <;> simp [ht] <;> omega

theorem processItems_mem (w : World) (api : Bool)
    (d : List (String × String)) (l : List VideoMetadata)
    (h : processItems w api d = Res.ok l) :
    ∀ m ∈ l, ∃ p, m.local_path = some p ∧ p ≠ "" ∧
      w.downloadPath m.id = some p ∧ download_with_ytdlp w m.url p = true := by
  induction d generalizing l with
  | nil =>
    unfold processItems at h
    injection h with h
    subst h
    intro m hm
    simp at hm
  | cons q rest ih =>
    obtain ⟨url, vid⟩ := q
    rw [processItems_cons] at h
    split at h
    · cases h
    · next m0 hg =>
      split at h
      · cases h
      · next tail htail =>
        injection h with h
        subst h
        intro m hm
        cases ht : optTruthy (download_video w m0).1 with
        | false =>
          rw [ht] at hm
          simp at hm
          exact ih tail htail m hm
        | true =>
          rw [ht] at hm
          simp at hm
          rcases hm with rfl | hm
          · obtain ⟨p, hdp, hpne, hq, hs, hupd⟩ :=
              download_video_truthy w m0 (download_video w m0).1
                (download_video w m0).2 rfl ht
            refine ⟨p, ?_, hpne, ?_, ?_⟩
            · rw [hupd]
            · rw [hupd]
              simpa using hq
            · rw [hupd]
              simpa using hs
          · exact ih tail htail m hm

theorem init_api_ok_api (st : CollectorState) (w : World) (hInv : stInv st)
    (h : (init_api st w).2 ≠ Res.exn) : (init_api st w).1.api = true := by
  obtain ⟨sapi, sinit⟩ := st
  cases sinit with
  | false =>
    cases hi : w.initOut
    · simp [init_api, hi]
    · exact absurd (by simp [init_api, hi]) h
    · exact absurd (by simp [init_api, hi]) h
  | true =>
    have hA : sapi = true := hInv rfl
    subst hA
    simp [init_api]

theorem dictInsert_length (d : List (String × String)) (k v : String) :
    (dictInsert d k v).length ≤ d.length + 1 := by
  unfold dictInsert
  split
  · simp
  · simp

theorem buildAux_length (urls : List String) (d : List (String × String)) :
    (buildAux d urls).length ≤ d.length + urls.length := by
  induction urls generalizing d with
  | nil => simp [buildAux]
  | cons url rest ih =>
    have hlc : (url :: rest).length = rest.length + 1 := List.length_cons _ _
    unfold buildAux
    split
    · next v hv =>
      by_cases hve : v = ""
      · rw [if_pos hve]
        have := ih d
        omega
      · rw [if_neg hve]
        have h1 := ih (dictInsert d (pyStrip url) v)
        have h2 := dictInsert_length d (pyStrip url) v
        omega
    · have := ih d
      omega

theorem build_length (urls : List String) :
    (buildUrlToId urls).length ≤ urls.length := by
  have := buildAux_length urls []
  simpa [buildUrlToId] using this

/-- C1 counterexample: in a world where video `111` fully succeeds and the
metadata fetch for video `222` raises, the one-element batch for `111`
yields one record, yet the two-element batch `[uA, uB]` yields the empty
list — the failure of the second item discards the already-successful first
record and aborts the batch, contradicting per-item failure isolation for
metadata-fetch failures. -/
theorem C1_counterexample :
    (batchResults stFresh wC1 [uA]).length = 1 ∧
    batchResults stFresh wC1 [uA, uB] = [] := by
  decide

/-- C1 amended: isolation holds only for the download step — when the
session initializes and no item's metadata fetch raises, each record's
presence in the result depends only on its own download outcome (the result
is an item-wise filter-map over the resolved pairs); but if any item's
metadata fetch raises, the batch-level handler is reached and the whole
batch returns the empty list, discarding records processed before the
failing item and never processing the ones after it. -/
theorem C1_item_isolation (st : CollectorState) (w : World) (urls : List String)
    (hInv : stInv st) :
    ((init_api st w).2 ≠ Res.exn →
      (∀ p ∈ buildUrlToId urls, get_video_info w true p.2 (some p.1) ≠ Res.exn) →
      batchResults st w urls = (buildUrlToId urls).filterMap (processItem w true)) ∧
    ((∃ p ∈ buildUrlToId urls, get_video_info w true p.2 (some p.1) = Res.exn) →
      batchResults st w urls = []) := by
  constructor
  · intro hinit hno
    have hapi : (init_api st w).1.api = true := init_api_ok_api st w hInv hinit
    have hres : (download_videos st w urls).2 =
        Res.ok ((buildUrlToId urls).filterMap (processItem w true)) := by
      unfold download_videos
      split
      · next heq => exact absurd heq hinit
      · by_cases hd : buildUrlToId urls = []
        · rw [if_pos hd, hd]
          simp
        · rw [if_neg hd]
          have hpi : processItems w (init_api st w).1.api (buildUrlToId urls) =
              Res.ok ((buildUrlToId urls).filterMap (processItem w true)) := by
            rw [hapi]
            exact processItems_ok_of_no_exn w true _ hno
          rw [hpi]
    exact batchResults_eq st w urls _ hres
  · intro hex
    rcases dv_results_cases st w urls with h | ⟨l, h, hl⟩
    · exact batchResults_eq st w urls [] h
    · exfalso
      cases hapi : (init_api st w).1.api with
      | false =>
        rcases hex with ⟨p, hp, _⟩
        have hexn : processItems w false (buildUrlToId urls) = Res.exn :=
          processItems_exn_of_exn w false _ ⟨p, hp, rfl⟩
        rw [hapi] at hl
        rw [hl] at hexn
        cases hexn
      | true =>
        have hexn : processItems w true (buildUrlToId urls) = Res.exn :=
          processItems_exn_of_exn w true _ hex
        rw [hapi] at hl
        rw [hl] at hexn
        cases hexn

/-- C1 witness: the amended claim at the concrete worlds of the
counterexample. -/
theorem C1_witness :
    batchResults stFresh wC1 [uA] =
      (buildUrlToId [uA]).filterMap (processItem wC1 true) ∧
    batchResults stFresh wC1 [uA, uB] = [] :=
  ⟨(C1_item_isolation stFresh wC1 [uA] (by intro h; simp [stFresh] at h)).1
      (by decide) (by decide),
   (C1_item_isolation stFresh wC1 [uA, uB] (by intro h; simp [stFresh] at h)).2
      (by decide)⟩

/-- C3: for every starting state, world and batch, the returned list has at
most as many records as there are input URLs, and every returned record
carries a non-empty `local_path` — which equals the output path computed for
that record's ID and certifies that its download-tool invocation succeeded
(`local_path` is attached exactly by the successful download step). -/
theorem C3_result_invariant (st : CollectorState) (w : World)
    (urls : List String) :
    (batchResults st w urls).length ≤ urls.length ∧
    ∀ m ∈ batchResults st w urls, ∃ p, m.local_path = some p ∧ p ≠ "" ∧
      w.downloadPath m.id = some p ∧ download_with_ytdlp w m.url p = true := by
  rcases dv_results_cases st w urls with h | ⟨l, h, hl⟩
  · rw [batchResults_eq st w urls [] h]
    constructor
    · simp
    · intro m hm
      simp at hm
  · rw [batchResults_eq st w urls l h]
    constructor
    · calc l.length ≤ (buildUrlToId urls).length :=
            processItems_length _ _ _ _ hl
        _ ≤ urls.length := build_length urls
    · exact processItems_mem _ _ _ _ hl

/-- C3 witness: the invariant at a concrete successful batch, including the
concrete returned record. -/
theorem C3_witness :
    (batchResults stFresh wC1 [uA]).length ≤ [uA].length ∧
    (∃ p, mDone.local_path = some p ∧ p ≠ "" ∧
      wC1.downloadPath mDone.id = some p ∧
      download_with_ytdlp wC1 mDone.url p = true) :=
  ⟨(C3_result_invariant stFresh wC1 [uA]).1,
   (C3_result_invariant stFresh wC1 [uA]).2 mDone (by decide)⟩

/-! ### Lemmas about the `url_to_id` dict and result ordering -/

theorem extract_empty : extract_video_id "" = none := by decide

theorem mkMetadata_url (vid u : String) (r : RawResponse) :
    (mkMetadata vid u r).url = some u := rfl

theorem dictInsert_keys (d : List (String × String)) (k v : String) :
    (dictInsert d k v).map Prod.fst =
      if d.any (fun p => p.1 = k) then d.map Prod.fst
      else d.map Prod.fst ++ [k] := by
  unfold dictInsert
  split
  · rw [List.map_map]
    refine List.map_congr_left ?_
    intro p hp
    simp only [Function.comp]
    by_cases hpk : p.1 = k
    · rw [if_pos hpk]
      exact hpk.symm
    · rw [if_neg hpk]
  · simp

theorem dictInsert_mem (d : List (String × String)) (k v : String)
    (p : String × String) (h : p ∈ dictInsert d k v) : p.1 = k ∨ p ∈ d := by
  unfold dictInsert at h
  split at h
  · rcases List.mem_map.mp h with ⟨q, hq, hpq⟩
    by_cases hqk : q.1 = k
    · rw [if_pos hqk] at hpq
      left
      rw [← hpq]
    · rw [if_neg hqk] at hpq
      right
      exact hpq ▸ hq
  · rcases List.mem_append.mp h with hmem | hk
    · right
      exact hmem
    · left
      simp at hk
      rw [hk]

theorem buildAux_keys_sublist (urls : List String) (d : List (String × String)) :
    List.Sublist ((buildAux d urls).map Prod.fst)
      (d.map Prod.fst ++ urls.map pyStrip) := by
  induction urls generalizing d with
  | nil => simp [buildAux]
  | cons url rest ih =>
    unfold buildAux
    rw [List.map_cons]
    split
    · next v hv =>
      by_cases hve : v = ""
      · rw [if_pos hve]
        exact (ih d).trans
          (List.Sublist.append_left (List.sublist_cons_self _ _) _)
      · rw [if_neg hve]
        refine (ih (dictInsert d (pyStrip url) v)).trans ?_
        rw [dictInsert_keys]
        split
        · exact List.Sublist.append_left (List.sublist_cons_self _ _) _
        · have heq : (d.map Prod.fst ++ [pyStrip url]) ++ rest.map pyStrip
              = d.map Prod.fst ++ (pyStrip url :: rest.map pyStrip) := by
            simp
          rw [heq]
    · exact (ih d).trans
        (List.Sublist.append_left (List.sublist_cons_self _ _) _)

theorem buildAux_keys_ne (urls : List String) (d : List (String × String))
    (hd : ∀ p ∈ d, p.1 ≠ "") : ∀ p ∈ buildAux d urls, p.1 ≠ "" := by
  induction urls generalizing d with
  | nil => simpa [buildAux] using hd
  | cons url rest ih =>
    unfold buildAux
    split
    · next v hv =>
      by_cases hve : v = ""
      · rw [if_pos hve]
        exact ih d hd
      · rw [if_neg hve]
        refine ih (dictInsert d (pyStrip url) v) ?_
        intro p hp
        rcases dictInsert_mem d (pyStrip url) v p hp with h | h
        · rw [h]
          intro he
          rw [he, extract_empty] at hv
          cases hv
        · exact hd p h
    · exact ih d hd

theorem buildAux_keys_nodup (urls : List String) (d : List (String × String))
    (hd : (d.map Prod.fst).Nodup) : ((buildAux d urls).map Prod.fst).Nodup := by
  induction urls generalizing d with
  | nil => simpa [buildAux] using hd
  | cons url rest ih =>
    unfold buildAux
    split
    · next v hv =>
      by_cases hve : v = ""
      · rw [if_pos hve]
        exact ih d hd
      · rw [if_neg hve]
        refine ih (dictInsert d (pyStrip url) v) ?_
        rw [dictInsert_keys]
        split
        · exact hd
        · next hany =>
          refine List.Nodup.append hd (List.nodup_singleton _) ?_
          intro a ha hb
          simp at hb
          subst hb
          rcases List.mem_map.mp ha with ⟨q, hq, hqa⟩
          exact hany (List.any_eq_true.mpr ⟨q, hq, by simp [hqa]⟩)
    · exact ih d hd

theorem processItems_urls_sublist (w : World) (api : Bool)
    (d : List (String × String)) (l : List VideoMetadata)
    (hd : ∀ p ∈ d, p.1 ≠ "") (h : processItems w api d = Res.ok l) :
    List.Sublist (l.map (fun m => m.url.getD "")) (d.map Prod.fst) := by
  induction d generalizing l with
  | nil =>
    unfold processItems at h
    injection h with h
    subst h
    simp
  | cons q rest ih =>
    obtain ⟨url, vid⟩ := q
    rw [processItems_cons] at h
    split at h
    · cases h
    · next m hg =>
      split at h
      · cases h
      · next tail htail =>
        injection h with h
        subst h
        have hurlne : url ≠ "" := hd (url, vid) (List.mem_cons_self _ _)
        have hsub := ih tail (fun p hp => hd p (List.mem_cons_of_mem _ hp)) htail
        rw [List.map_cons]
        cases ht : optTruthy (download_video w m).1 with
        | false =>
          simp only [ht, if_false, Bool.false_eq_true]
          exact hsub.trans (List.sublist_cons_self _ _)
        | true =>
          have hmurl : m.url = some url := by
            obtain ⟨-, r, hf, hm⟩ := get_video_info_ok w api vid (some url) m hg
            rw [hm, mkMetadata_url, effective_url_some vid url hurlne]
          have hupdurl : (download_video w m).2.url = some url := by
            rw [download_video_url]
            exact hmurl
          simp only [ht, if_true, List.map_cons]
          rw [hupdurl]
          exact List.Sublist.cons₂ _ hsub

/-- C8: the records `download_videos` returns appear in the same relative
order as their (trimmed) source URLs appeared in the input sequence — the
returned records' URL column is a sublist of the trimmed input URL list,
with skipped and failed URLs removed. -/
theorem C8_order (st : CollectorState) (w : World) (urls : List String) :
    List.Sublist ((batchResults st w urls).map (fun m => m.url.getD ""))
      (urls.map pyStrip) := by
  rcases dv_results_cases st w urls with h | ⟨l, h, hl⟩
  · rw [batchResults_eq st w urls [] h]
    simp
  · rw [batchResults_eq st w urls l h]
    have hkeys : ∀ p ∈ buildUrlToId urls, p.1 ≠ "" :=
      buildAux_keys_ne urls [] (by intro p hp; simp at hp)
    have h1 := processItems_urls_sublist w _ (buildUrlToId urls) l hkeys hl
    have h2 := buildAux_keys_sublist urls []
    simp only [List.map_nil, List.nil_append] at h2
    exact h1.trans h2

/-- C9: the `url_to_id` mapping is keyed by the trimmed URL, so duplicate
input URLs collapse to a single key (the key list is duplicate-free) and
each distinct trimmed URL contributes at most one record to the batch
result. -/
theorem C9_within_batch_dedup (st : CollectorState) (w : World)
    (urls : List String) :
    ((buildUrlToId urls).map Prod.fst).Nodup ∧
    ∀ u, ((batchResults st w urls).map (fun m => m.url.getD "")).count u ≤ 1 := by
  have hnodup : ((buildUrlToId urls).map Prod.fst).Nodup :=
    buildAux_keys_nodup urls [] (by simp)
  refine ⟨hnodup, ?_⟩
  intro u
  have hsub : List.Sublist
      ((batchResults st w urls).map (fun m => m.url.getD ""))
      ((buildUrlToId urls).map Prod.fst) := by
    rcases dv_results_cases st w urls with h | ⟨l, h, hl⟩
    · rw [batchResults_eq st w urls [] h]
      simp
    · rw [batchResults_eq st w urls l h]
      exact processItems_urls_sublist w _ _ l
        (buildAux_keys_ne urls [] (by intro p hp; simp at hp)) hl
  have hnd := List.Nodup.sublist hsub hnodup
  exact List.nodup_iff_count_le_one.mp hnd u
